import Mathlib

/-
Verification of the libSocket core (class SocketBase) against its design
specification.

Shallow embedding of src/src/socket_base.cpp and src/include/socket_base.h.
The OS (POSIX socket layer) is modelled explicitly:
  - recv / send / ioctl(FIONREAD) / recvfrom act on explicit queue states;
  - select / poll outcomes are supplied by an oracle (a list of outcomes),
    one entry per syscall issued, so that every interleaving of timeouts,
    readiness and signal interruptions can be examined;
  - every OS call the code issues is recorded in an explicit trace
    (List OsCall), which lets us state "no OS call is issued before the
    argument checks" and "close does not signal shutdown" exactly.

Exception mapping (the C++ code throws; the embedding returns Except):
  - THROW_INVALID_ARGUMENT ...                      ==> SockError.invalidArgument
  - THROW_SYSTEM_ERROR "Invalid socket handler"     ==> SockError.invalidHandle
    (this is the "InvalidHandle" condition of the spec's error taxonomy)
  - THROW_SYSTEM_ERROR on a failing OS primitive    ==> SockError.systemError
-/

set_option autoImplicit false

deriving instance DecidableEq for Except

namespace LibSocket

/-- Errors raised by SocketBase operations (spec section 7 taxonomy). -/
inductive SockError where
  | invalidArgument
  | invalidHandle
  | systemError
deriving DecidableEq, Repr

/-- State of a SocketBase object: the descriptor hsock_ (INVALID_HANDLER = -1
when not owning one) and the identity token inode_ (INVALID_INODE = 0 when
invalid).  Mirrors the two data members of class SocketBase. -/
structure SocketBase where
  hsock : Int
  inode : Nat
deriving DecidableEq, Repr

/-- Value of an invalid socket handler (socket_base.h, enum INVALID_HANDLER). -/
def INVALID_HANDLER : Int := -1

/-- Value of an invalid inode identifier (socket_base.h, enum INVALID_INODE). -/
def INVALID_INODE : Nat := 0

/-- ReadTimeouts sentinel: do not wait for data. -/
def DONT_WAIT : Int := 0

/-- ReadTimeouts sentinel: wait for data forever. -/
def WAIT_DATA_FOREVER : Int := -1

/-- WriteModes value WRITE_DONT_WAIT (non-blocking write). -/
def WRITE_DONT_WAIT : Nat := 0

/-- WriteModes value WRITE_WAIT_QUEUED (blocking write). -/
def WRITE_WAIT_QUEUED : Nat := 1

/-- OS calls the code can issue, recorded in traces in issue order. -/
inductive OsCall where
  | ioctlFIONREAD
  | recvfromZero
  | recvCall (n : Nat)
  | sendCall (data : List Nat)
  | selectCall
  | shutdownCall (fd : Int)
  | closeCall (fd : Int)
deriving DecidableEq, Repr

/-! ### OS model: receive queues -/

/-- Input queue of a socket as seen by an immediate recv: the bytes already
delivered by the OS and whether the peer has performed an orderly shutdown
after them. -/
structure InQueue where
  data : List Nat
  eof : Bool
deriving DecidableEq, Repr

/-- POSIX recv with MSG_DONTWAIT on a socket in (default) blocking mode:
transfers up to n of the immediately available bytes; on an empty queue it
returns 0 after a peer shutdown and otherwise fails with EAGAIN, reported as
the return value -1. -/
def recvDontWait (q : InQueue) (n : Nat) : Int × InQueue :=
  if q.data.isEmpty then
    if q.eof then (0, q) else (-1, q)
  else
    (Int.ofNat (min n q.data.length), { q with data := q.data.drop (min n q.data.length) })

/-- POSIX recv with MSG_WAITALL: blocks until n bytes are transferred, or
fewer when the peer shuts down first.  Bytes that would arrive while blocked
are modelled as already present in the queue. -/
def recvWaitAll (q : InQueue) (n : Nat) : Int × InQueue :=
  if q.eof then
    (Int.ofNat (min n q.data.length), { q with data := q.data.drop (min n q.data.length) })
  else
    (Int.ofNat n, { q with data := q.data.drop n })

/-- Receive queue of a datagram socket: the payload sizes of the queued
datagrams, in arrival order. -/
structure DgramQueue where
  msgs : List Nat
deriving DecidableEq, Repr

/-! ### SocketBase::pending (socket_base.cpp lines 60-75)

    int count = 0;
    if (ioctl(hsock_, FIONREAD, &count) < 0)
        THROW_INVALID_ARGUMENT("The socket is in an invalid state");
    if (count == 0)
        recvfrom(hsock_, 0, 0, MSG_DONTWAIT, 0, 0);   // drain empty datagram
    return count;

Note that pending issues the ioctl before any check of hsock_ / inode_; the
ioctl fails (EBADF) when the descriptor is not open, and that failure is
reported as std::invalid_argument, not as the invalid-handle condition.
ioctl(FIONREAD) reports the payload length of the next queued datagram, 0
when the queue is empty; the zero-length recvfrom removes the queue head if
one is present and does nothing otherwise. -/
def SocketBase.pending (s : SocketBase) (q : DgramQueue) :
    Except SockError Nat × DgramQueue × List OsCall :=
  if s.hsock = INVALID_HANDLER then
    (Except.error SockError.invalidArgument, q, [OsCall.ioctlFIONREAD])
  else
    let count := q.msgs.headD 0
    if count = 0 then
      (Except.ok count, ⟨q.msgs.tail⟩, [OsCall.ioctlFIONREAD, OsCall.recvfromZero])
    else
      (Except.ok count, q, [OsCall.ioctlFIONREAD])

/-! ### Handle lifecycle (socket_base.cpp lines 29-55, 256-285) -/

/-- SocketBase::close: inode_ = 0; if the descriptor is owned, ::close it and
mark it invalid.  No shutdown is signalled. -/
def SocketBase.close (s : SocketBase) : SocketBase × List OsCall :=
  if s.hsock = INVALID_HANDLER then
    ({ s with inode := 0 }, [])
  else
    ({ hsock := INVALID_HANDLER, inode := 0 }, [OsCall.closeCall s.hsock])

/-- SocketBase::terminate: inode_ = 0; if the descriptor is owned, shutdown
both directions, then ::close it and mark it invalid.  Called by the
destructor. -/
def SocketBase.terminate (s : SocketBase) : SocketBase × List OsCall :=
  if s.hsock = INVALID_HANDLER then
    ({ s with inode := 0 }, [])
  else
    ({ hsock := INVALID_HANDLER, inode := 0 },
     [OsCall.shutdownCall s.hsock, OsCall.closeCall s.hsock])

/-- SocketBase destructor: calls terminate(). -/
def SocketBase.dtor (s : SocketBase) : SocketBase × List OsCall :=
  s.terminate

/-- SocketBase::invalidate: hsock_ = INVALID_HANDLER; inode_ = 0. -/
def SocketBase.invalidate (_s : SocketBase) : SocketBase :=
  { hsock := INVALID_HANDLER, inode := 0 }

/-- SocketBase move constructor: the new object copies hsock_ and inode_ from
the source, then the source is invalidated.  Returns (moved-to, source after
the move). -/
def SocketBase.moveCtor (other : SocketBase) : SocketBase × SocketBase :=
  ({ hsock := other.hsock, inode := other.inode }, other.invalidate)

/-! ### SocketBase::write (socket_base.cpp lines 208-222) -/

/-- POSIX send on a connected socket in (default) blocking mode, with room
bytes free in the send buffer.  With MSG_DONTWAIT: if there is no room at
all the call fails with EAGAIN (returns -1), otherwise it enqueues what fits.
Without MSG_DONTWAIT the call blocks until the whole buffer is enqueued. -/
def sendModel (room : Nat) (len : Nat) (dontWait : Bool) : Int :=
  if dontWait then
    if room = 0 then -1
    else Int.ofNat (min len room)
  else Int.ofNat len

/-- SocketBase::write.  buffer models the bytes the pointer designates (none
for a null pointer); bytes is the length argument; room is the free space in
the OS send buffer.  Guards are checked before any OS call (empty trace on a
guard failure); then one send is issued, and any negative send result is
raised as a system error. -/
def SocketBase.write (s : SocketBase) (buffer : Option (List Nat)) (bytes : Int)
    (writeMode : Nat) (room : Nat) : Except SockError Int × List OsCall :=
  if buffer = none ∨ bytes ≤ 0 then
    (Except.error SockError.invalidArgument, [])
  else if s.hsock = INVALID_HANDLER ∨ s.inode = INVALID_INODE then
    (Except.error SockError.invalidHandle, [])
  else
    let data := (buffer.getD []).take bytes.toNat
    let bytes_sent := sendModel room bytes.toNat (writeMode == WRITE_DONT_WAIT)
    if bytes_sent < 0 then
      (Except.error SockError.systemError, [OsCall.sendCall data])
    else
      (Except.ok bytes_sent, [OsCall.sendCall data])

/-- The std::string overload of write (socket_base.h lines 192-198):
write(buffer.c_str(), buffer.size() + 1, write_mode).  The bytes designated
by c_str() are the characters of the string followed by the terminating null
byte. -/
def SocketBase.writeString (s : SocketBase) (str : List Nat) (writeMode : Nat)
    (room : Nat) : Except SockError Int × List OsCall :=
  s.write (some (str ++ [0])) (Int.ofNat (str.length + 1)) writeMode room

/-! ### SocketBase::read (socket_base.cpp lines 160-203) -/

/-- Outcome of one select call inside the bounded read loop.  The Linux
select updates the timeval with the unslept time, so ready and eintr carry
the remaining budget (in microseconds) the struct holds afterwards. -/
inductive SelOutcome where
  | timeout
  | ready (remaining : Nat)
  | eintr (remaining : Nat)
  | fail
deriving DecidableEq, Repr

/-- OS responses consumed by one iteration of the bounded read loop: the
byte count pending() observes, the select outcome when the loop has to wait,
and the result of the recv that follows a successful wait (or follows
directly when data was already pending). -/
structure Step where
  pendingN : Nat
  sel : SelOutcome
  recvR : Int
deriving DecidableEq, Repr

/-- The bounded-timeout loop of SocketBase::read:

    while (lesen < bytes && tm.tv_sec + tm.tv_usec > 0)
    {
        if (!pending())
        {
            ... select(hsock_+1, &socklist, 0, 0, &tm) ...
            if (result == 0) break;                  // timeout
            if (result < 0) { if EINTR continue; else throw; }
        }
        int err = recv(hsock_, buffer + lesen, bytes - lesen, MSG_NOSIGNAL);
        if (err < 0) throw;
        if (err == 0) break;                         // peer closed
        lesen += err;
    }

The timeval budget is modelled as a single Nat (microseconds); the loop
condition tv_sec + tv_usec > 0 is exactly budget being nonzero.  One Step is
consumed per iteration; an exhausted oracle ends the run with the bytes
accumulated so far (the concrete traces examined never reach that case).
Returns the accumulated count (or the raised error) and the OS-call trace. -/
def readLoop (bytes : Nat) : List Step → Nat → Nat → Except SockError Nat × List OsCall
  | [], lesen, _budget => (Except.ok lesen, [])
  | st :: rest, lesen, budget =>
    if lesen < bytes ∧ 0 < budget then
      if st.pendingN = 0 then
        match st.sel with
        | SelOutcome.timeout => (Except.ok lesen, [OsCall.selectCall])
        | SelOutcome.fail => (Except.error SockError.systemError, [OsCall.selectCall])
        | SelOutcome.eintr r =>
          let next := readLoop bytes rest lesen r
          (next.1, OsCall.selectCall :: next.2)
        | SelOutcome.ready r =>
          if st.recvR < 0 then
            (Except.error SockError.systemError,
             [OsCall.selectCall, OsCall.recvCall (bytes - lesen)])
          else if st.recvR = 0 then
            (Except.ok lesen, [OsCall.selectCall, OsCall.recvCall (bytes - lesen)])
          else
            let next := readLoop bytes rest (lesen + st.recvR.toNat) r
            (next.1, OsCall.selectCall :: OsCall.recvCall (bytes - lesen) :: next.2)
      else
        if st.recvR < 0 then
          (Except.error SockError.systemError, [OsCall.recvCall (bytes - lesen)])
        else if st.recvR = 0 then
          (Except.ok lesen, [OsCall.recvCall (bytes - lesen)])
        else
          let next := readLoop bytes rest (lesen + st.recvR.toNat) budget
          (next.1, OsCall.recvCall (bytes - lesen) :: next.2)
    else (Except.ok lesen, [])

/-- SocketBase::read.  buffer_null models buffer == nullptr.  After the
argument and handle guards: with DONT_WAIT the raw result of one
recv(MSG_NOSIGNAL | MSG_DONTWAIT) is returned as is (no sign check); with
WAIT_DATA_FOREVER the raw result of one recv(MSG_WAITALL) is returned as is;
any other timeout runs the bounded loop with the timeval initialised to
timeout milliseconds (timeout/1000 seconds plus (timeout%1000)*1000
microseconds, i.e. timeout*1000 microseconds). -/
def SocketBase.read (s : SocketBase) (buffer_null : Bool) (bytes : Int) (timeout : Int)
    (q : InQueue) (steps : List Step) : Except SockError Int × List OsCall :=
  if buffer_null = true ∨ bytes ≤ 0 then
    (Except.error SockError.invalidArgument, [])
  else if s.hsock = INVALID_HANDLER ∨ s.inode = INVALID_INODE then
    (Except.error SockError.invalidHandle, [])
  else if timeout = DONT_WAIT then
    (Except.ok (recvDontWait q bytes.toNat).1, [OsCall.recvCall bytes.toNat])
  else if timeout = WAIT_DATA_FOREVER then
    (Except.ok (recvWaitAll q bytes.toNat).1, [OsCall.recvCall bytes.toNat])
  else
    let run := readLoop bytes.toNat steps 0 (timeout.toNat * 1000)
    (run.1.map (fun n => Int.ofNat n), run.2)

/-! ### SocketBase::waitData (socket_base.cpp lines 80-100) -/

/-- Outcome of one select call inside waitData.  On readiness the Linux
select has updated the timeval; ready carries the remaining tv_sec and
tv_usec.  timedOut is a zero return, eintr an interruption by a signal
(retried by the do-while), fail any other negative return. -/
inductive WaitOutcome where
  | ready (remSec remUsec : Nat)
  | timedOut
  | eintr
  | fail
deriving DecidableEq, Repr

/-- The do-while select loop of waitData followed by the remaining-time
computation: eintr outcomes are consumed by the retry loop; a zero return
gives 0; a failing select raises a system error; on readiness select returns
1 (a single descriptor is watched), and when a deadline was armed
(hasDeadline) the result is recomputed as tm.tv_sec * 1000 + tm.tv_usec /
1000, the remaining budget in whole milliseconds.  An exhausted oracle is
out of model (the do-while always obtains a final outcome). -/
def waitDataLoop (hasDeadline : Bool) : List WaitOutcome → Except SockError Int
  | [] => Except.ok 0
  | WaitOutcome.eintr :: rest => waitDataLoop hasDeadline rest
  | WaitOutcome.timedOut :: _ => Except.ok 0
  | WaitOutcome.fail :: _ => Except.error SockError.systemError
  | WaitOutcome.ready rs ru :: _ =>
    if hasDeadline then Except.ok (Int.ofNat (rs * 1000 + ru / 1000))
    else Except.ok 1

/-- SocketBase::waitData: handle guard, then select on the single descriptor
with the timeval armed unless timeout == WAIT_DATA_FOREVER (then a null
timeval pointer: no deadline). -/
def SocketBase.waitData (s : SocketBase) (timeout : Int) (outs : List WaitOutcome) :
    Except SockError Int :=
  if s.hsock = INVALID_HANDLER ∨ s.inode = INVALID_INODE then
    Except.error SockError.invalidHandle
  else
    waitDataLoop (timeout != WAIT_DATA_FOREVER) outs

/-! ### waitEvent (socket_base.cpp lines 290-316) -/

/-- Final outcome of the poll retry loop in waitEvent: fail is a negative
non-EINTR return; result carries the revents mask poll filled in for each
descriptor, in the order of the supplied list.  poll's own return value is
the number of entries with a nonzero revents. -/
inductive PollFinal where
  | fail
  | result (revents : List Nat)
deriving DecidableEq, Repr

/-- WaitModes value WAIT_READ (= POLLIN). -/
def WAIT_READ : Int := 1

/-- WaitModes value WAIT_WRITE (= POLLOUT). -/
def WAIT_WRITE : Int := 4

/-- WaitModes value WAIT_READWRITE (= POLLIN or POLLOUT). -/
def WAIT_READWRITE : Int := 5

/-- waitEvent(eventType, timeout, socklist).  Returns (result, attempts)
where result is the index into socklist of the returned socket (the C++
function returns the pointer to socklist[idx]; none models nullptr) and
attempts is the list of timeout arguments passed to the successive poll
calls (nEintr interrupted calls followed by the final one, every one with
the same caller-supplied timeout).  An empty list or a non-positive
eventType returns nullptr before any poll.  When poll reports at least one
descriptor with events, the first descriptor in input order whose revents
intersect eventType is returned; otherwise nullptr. -/
def waitEvent (eventType : Int) (timeout : Nat) (socklist : List SocketBase)
    (nEintr : Nat) (fin : PollFinal) : Option Nat × List Nat :=
  if socklist.isEmpty ∨ eventType ≤ 0 then (none, [])
  else
    let attempts := List.replicate (nEintr + 1) timeout
    match fin with
    | PollFinal.fail => (none, attempts)
    | PollFinal.result revents =>
      if 0 < revents.countP (fun r => r != 0) then
        (revents.findIdx? (fun r => r &&& eventType.toNat != 0), attempts)
      else (none, attempts)


/-! ## Claims -/

/-- C1.  The claim states that on a live handle, with a non-null buffer and
maxBytes > 0, read(buffer, maxBytes, DONT_WAIT) returns the number of bytes
immediately available, a value in [0, maxBytes], never negative, and that an
empty input queue yields 0 rather than an error.  The code forwards the raw
result of recv(MSG_NOSIGNAL | MSG_DONTWAIT) without any sign check, and a
non-blocking recv on an empty input queue (no peer shutdown) fails with
EAGAIN, i.e. returns -1: on a live handle ⟨5, 100⟩ with buffer non-null and
maxBytes = 4, read returns -1, a negative value outside [0, 4], after the
single non-blocking receive.  This contradicts the function's own
documentation (socket_base.h: return is bytes read, 0 when there is nothing
to read). -/
theorem read_dontwait_empty_queue_returns_negative :
    SocketBase.read ⟨5, 100⟩ false 4 DONT_WAIT ⟨[], false⟩ [] =
      (Except.ok (-1), [OsCall.recvCall 4]) ∧
    ¬(0 ≤ (-1 : Int)) := by decide

/-- C3 counterexample.  The claim states that with DONT_WAIT a full send
buffer is reported through the return value (0), not by raising an error.
On the live handle ⟨5, 100⟩ with 4 bytes and no room in the send buffer, the
single non-blocking send fails with EAGAIN (-1) and write raises
SystemError; it does not return 0. -/
theorem write_dontwait_full_buffer_raises :
    SocketBase.write ⟨5, 100⟩ (some [1, 2, 3, 4]) 4 WRITE_DONT_WAIT 0 =
      (Except.error SockError.systemError, [OsCall.sendCall [1, 2, 3, 4]]) ∧
    (Except.error SockError.systemError : Except SockError Int) ≠ Except.ok 0 := by decide

/-- C3 amended.  For every live handle, non-null buffer and length > 0,
write with WRITE_DONT_WAIT issues exactly one non-blocking send: when the
send buffer has room, it returns the number of bytes actually enqueued,
min(length, room), which may be less than length; when the send buffer is
completely full the send primitive fails with EAGAIN and write raises
SystemError (a full buffer is not reported through the return value). -/
theorem write_dontwait_behavior (s : SocketBase) (buf : List Nat) (bytes : Int) (room : Nat)
    (hs : s.hsock ≠ INVALID_HANDLER) (hi : s.inode ≠ INVALID_INODE) (hb : 0 < bytes) :
    (0 < room → s.write (some buf) bytes WRITE_DONT_WAIT room =
        (Except.ok (Int.ofNat (min bytes.toNat room)),
         [OsCall.sendCall (buf.take bytes.toNat)])) ∧
    (room = 0 → s.write (some buf) bytes WRITE_DONT_WAIT room =
        (Except.error SockError.systemError, [OsCall.sendCall (buf.take bytes.toNat)])) := by
  have hnh : ¬(s.hsock = INVALID_HANDLER ∨ s.inode = INVALID_INODE) := not_or.mpr ⟨hs, hi⟩
  have hb' : ¬(bytes ≤ 0) := by omega
  constructor
  · intro hroom
    have hr0 : ¬(room = 0) := by omega
    simp [SocketBase.write, hnh, sendModel, WRITE_DONT_WAIT, hr0, hb']
  · intro hroom
    simp [SocketBase.write, hnh, sendModel, WRITE_DONT_WAIT, hroom, hb']

/-- C3 amended, witness: live handle ⟨5, 100⟩, buffer [7, 8], length 2 and
partial room 1 enqueue a single byte without error. -/
theorem write_dontwait_behavior_witness :
    SocketBase.write ⟨5, 100⟩ (some [7, 8]) 2 WRITE_DONT_WAIT 1 =
      (Except.ok (Int.ofNat (min (2 : Int).toNat 1)),
       [OsCall.sendCall ([7, 8].take (2 : Int).toNat)]) :=
  (write_dontwait_behavior ⟨5, 100⟩ [7, 8] 2 1 (by decide) (by decide) (by decide)).1
    (by decide)

/-- C4 counterexample.  The claim states that pending() on a non-live handle
raises InvalidHandle before any OS call is issued.  On a non-live handle the
code instead issues the ioctl(FIONREAD) OS call first and reports the failed
ioctl as InvalidArgument: the error raised is not InvalidHandle and the
trace of issued OS calls is not empty. -/
theorem pending_dead_handle_counterexample :
    SocketBase.pending ⟨-1, 0⟩ ⟨[]⟩ =
      (Except.error SockError.invalidArgument, ⟨[]⟩, [OsCall.ioctlFIONREAD]) ∧
    (Except.error SockError.invalidArgument : Except SockError Nat) ≠
      Except.error SockError.invalidHandle ∧
    ([OsCall.ioctlFIONREAD] : List OsCall) ≠ [] := by decide

/-- C4 amended.  read and write check their arguments and handle state and
raise the error before any OS call is issued (failed guards leave an empty
OS-call trace, for every OS state): a null buffer or non-positive byte count
raises InvalidArgument, a non-live handle raises InvalidHandle.  pending,
however, issues its ioctl first and reports a failed ioctl — including the
one caused by a non-live handle — as InvalidArgument. -/
theorem guard_checks_before_os_calls (s : SocketBase) (bytes timeout : Int) (writeMode : Nat) :
    (∀ q steps, s.read true bytes timeout q steps =
        (Except.error SockError.invalidArgument, [])) ∧
    (bytes ≤ 0 → ∀ q steps, s.read false bytes timeout q steps =
        (Except.error SockError.invalidArgument, [])) ∧
    (bytes ≤ 0 → ∀ buf room, s.write (some buf) bytes writeMode room =
        (Except.error SockError.invalidArgument, [])) ∧
    (∀ room, s.write none bytes writeMode room =
        (Except.error SockError.invalidArgument, [])) ∧
    ((s.hsock = INVALID_HANDLER ∨ s.inode = INVALID_INODE) → 0 < bytes →
      (∀ q steps, s.read false bytes timeout q steps =
          (Except.error SockError.invalidHandle, [])) ∧
      (∀ buf room, s.write (some buf) bytes writeMode room =
          (Except.error SockError.invalidHandle, []))) ∧
    (s.hsock = INVALID_HANDLER → ∀ q, s.pending q =
        (Except.error SockError.invalidArgument, q, [OsCall.ioctlFIONREAD])) := by
  refine ⟨?_, ?_, ?_, ?_, ?_, ?_⟩
  · intro q steps
    simp [SocketBase.read]
  · intro hb q steps
    simp [SocketBase.read, hb]
  · intro hb buf room
    simp [SocketBase.write, hb]
  · intro room
    simp [SocketBase.write]
  · intro hdead hb
    have hng : ¬(bytes ≤ 0) := by omega
    constructor
    · intro q steps
      simp [SocketBase.read, hng, hdead]
    · intro buf room
      simp [SocketBase.write, hng, hdead]
  · intro hdead q
    simp [SocketBase.pending, hdead]

/-- C4 amended, witness: on the non-live handle ⟨-1, 0⟩ a read with valid
arguments raises InvalidHandle with no OS call issued. -/
theorem guard_checks_before_os_calls_witness :
    SocketBase.read ⟨-1, 0⟩ false 4 100 ⟨[], false⟩ [] =
      (Except.error SockError.invalidHandle, []) :=
  ((guard_checks_before_os_calls ⟨-1, 0⟩ 4 100 0).2.2.2.2.1
    (Or.inl (by decide)) (by decide)).1 ⟨[], false⟩ []

/-- C5.  On a handle whose descriptor is open, pending() returns the number
of bytes immediately available (the payload length of the next queued
datagram, 0 when none); whenever the observed count is zero it issues one
non-blocking zero-length receive that removes the queued empty datagram if
one is present and does nothing otherwise; when the count is nonzero no
drain is issued and the queue is untouched.  Consequently, on a queue
holding an empty datagram followed by one of m bytes, a second pending()
call reports m instead of staying stuck at 0. -/
theorem pending_spec (s : SocketBase) (q : DgramQueue) (hs : s.hsock ≠ INVALID_HANDLER) :
    ((s.pending q).1 = Except.ok (q.msgs.headD 0)) ∧
    (q.msgs.headD 0 = 0 → s.pending q =
        (Except.ok 0, ⟨q.msgs.tail⟩, [OsCall.ioctlFIONREAD, OsCall.recvfromZero])) ∧
    (q.msgs.headD 0 ≠ 0 → s.pending q =
        (Except.ok (q.msgs.headD 0), q, [OsCall.ioctlFIONREAD])) ∧
    (∀ m rest, q.msgs = 0 :: m :: rest →
        (s.pending (s.pending q).2.1).1 = Except.ok m) := by
  refine ⟨?_, ?_, ?_, ?_⟩
  · cases hq : q.msgs with
    | nil => simp [SocketBase.pending, hs, hq]
    | cons a t => by_cases h : a = 0 <;> simp [SocketBase.pending, hs, hq, h]
  · intro h
    cases hq : q.msgs with
    | nil => simp [SocketBase.pending, hs, hq]
    | cons a t =>
      rw [hq] at h
      simp only [List.headD_cons] at h
      simp [SocketBase.pending, hs, hq, h]
  · intro h
    cases hq : q.msgs with
    | nil =>
      rw [hq] at h
      simp at h
    | cons a t =>
      rw [hq] at h
      simp only [List.headD_cons] at h
      simp [SocketBase.pending, hs, hq, h]
  · intro m rest hq
    by_cases hm : m = 0 <;> simp [SocketBase.pending, hs, hq, hm]

/-- C5 witness: descriptor 3, queue holding a zero-length datagram followed
by a 10-byte datagram; the second pending() call reports 10. -/
theorem pending_spec_witness :
    (SocketBase.pending ⟨3, 7⟩ ((SocketBase.pending ⟨3, 7⟩ ⟨[0, 10]⟩).2.1)).1 =
      Except.ok 10 :=
  (pending_spec ⟨3, 7⟩ ⟨[0, 10]⟩ (by decide)).2.2.2 10 [] rfl

/-- C2.  For every live handle, non-null buffer, maxBytes > 0 and bounded
timeout t > 0, read dispatches to the bounded loop with a fresh accumulator
and the full time budget (t milliseconds = t*1000 microseconds in the
timeval), and the loop satisfies, step by step: once the budget is exhausted
the loop ends with the bytes accumulated so far; when no data is pending and
the wait times out, it stops and returns the bytes accumulated so far
(possibly 0) with no receive issued; when the wait is interrupted by a
signal, the wait is retried with the remaining budget rather than raised as
an error; when the wait succeeds, exactly one receive of the remaining
needed bytes (maxBytes - accumulated) is issued: a zero-length receive (peer
close) stops the loop early, a positive receive is accumulated and the loop
continues with the budget recomputed by the wait; when data is already
pending, the receive of the remaining needed bytes is issued without
waiting. -/
theorem read_bounded_timeout_loop (s : SocketBase) (bytes timeout : Int)
    (hs : s.hsock ≠ INVALID_HANDLER) (hi : s.inode ≠ INVALID_INODE)
    (hb : 0 < bytes) (ht : 0 < timeout) :
    (∀ q steps, s.read false bytes timeout q steps =
        ((readLoop bytes.toNat steps 0 (timeout.toNat * 1000)).1.map (fun n => Int.ofNat n),
         (readLoop bytes.toNat steps 0 (timeout.toNat * 1000)).2)) ∧
    (∀ st rest lesen, readLoop bytes.toNat (st :: rest) lesen 0 = (Except.ok lesen, [])) ∧
    (∀ rr rest lesen budget, lesen < bytes.toNat → 0 < budget →
        readLoop bytes.toNat (⟨0, SelOutcome.timeout, rr⟩ :: rest) lesen budget =
          (Except.ok lesen, [OsCall.selectCall])) ∧
    (∀ rr r rest lesen budget, lesen < bytes.toNat → 0 < budget →
        readLoop bytes.toNat (⟨0, SelOutcome.eintr r, rr⟩ :: rest) lesen budget =
          ((readLoop bytes.toNat rest lesen r).1,
           OsCall.selectCall :: (readLoop bytes.toNat rest lesen r).2)) ∧
    (∀ r rest lesen budget, lesen < bytes.toNat → 0 < budget →
        readLoop bytes.toNat (⟨0, SelOutcome.ready r, 0⟩ :: rest) lesen budget =
          (Except.ok lesen, [OsCall.selectCall, OsCall.recvCall (bytes.toNat - lesen)])) ∧
    (∀ rr r rest lesen budget, lesen < bytes.toNat → 0 < budget → 0 < rr →
        readLoop bytes.toNat (⟨0, SelOutcome.ready r, rr⟩ :: rest) lesen budget =
          ((readLoop bytes.toNat rest (lesen + rr.toNat) r).1,
           OsCall.selectCall :: OsCall.recvCall (bytes.toNat - lesen) ::
             (readLoop bytes.toNat rest (lesen + rr.toNat) r).2)) ∧
    (∀ pn sel rr rest lesen budget, lesen < bytes.toNat → 0 < budget → pn ≠ 0 → 0 < rr →
        readLoop bytes.toNat (⟨pn, sel, rr⟩ :: rest) lesen budget =
          ((readLoop bytes.toNat rest (lesen + rr.toNat) budget).1,
           OsCall.recvCall (bytes.toNat - lesen) ::
             (readLoop bytes.toNat rest (lesen + rr.toNat) budget).2)) := by
  refine ⟨?_, ?_, ?_, ?_, ?_, ?_, ?_⟩
  · intro q steps
    have h1 : ¬(bytes ≤ 0) := by omega
    have h2 : ¬(s.hsock = INVALID_HANDLER ∨ s.inode = INVALID_INODE) := not_or.mpr ⟨hs, hi⟩
    have h3 : timeout ≠ DONT_WAIT := by
      simp only [DONT_WAIT]
      omega
    have h4 : timeout ≠ WAIT_DATA_FOREVER := by
      simp only [WAIT_DATA_FOREVER]
      omega
    simp [SocketBase.read, h1, h2, h3, h4]
  · intro st rest lesen
    simp [readLoop]
  · intro rr rest lesen budget hl hbud
    simp [readLoop, hl, hbud]
  · intro rr r rest lesen budget hl hbud
    simp [readLoop, hl, hbud]
  · intro r rest lesen budget hl hbud
    simp [readLoop, hl, hbud]
  · intro rr r rest lesen budget hl hbud hrr
    have h5 : ¬(rr < 0) := by omega
    have h6 : ¬(rr = 0) := by omega
    simp [readLoop, hl, hbud, h5, h6]
  · intro pn sel rr rest lesen budget hl hbud hp hrr
    have h5 : ¬(rr < 0) := by omega
    have h6 : ¬(rr = 0) := by omega
    simp [readLoop, hl, hbud, hp, h5, h6]

/-- C2 witness: on the live handle ⟨5, 100⟩, a 4-byte read with a 250 ms
timeout whose single wait times out follows the dispatch equation. -/
theorem read_bounded_timeout_loop_witness :
    SocketBase.read ⟨5, 100⟩ false 4 250 ⟨[], false⟩ [⟨0, SelOutcome.timeout, 0⟩] =
      ((readLoop 4 [⟨0, SelOutcome.timeout, 0⟩] 0 250000).1.map (fun n => Int.ofNat n),
       (readLoop 4 [⟨0, SelOutcome.timeout, 0⟩] 0 250000).2) :=
  (read_bounded_timeout_loop ⟨5, 100⟩ 4 250 (by decide) (by decide) (by decide)
      (by decide)).1 ⟨[], false⟩ [⟨0, SelOutcome.timeout, 0⟩]

/-- C6 counterexample.  The claim states that waitData returns a value
strictly greater than 0 whenever the handle becomes readable before the
deadline, and returns exactly 0 only on timeout.  On the live handle
⟨5, 100⟩ with a 1000 ms timeout, a select that reports readiness with 900
microseconds of budget left makes waitData return 0 — the remaining budget,
recomputed as tv_sec * 1000 + tv_usec / 1000, rounds to zero whole
milliseconds — even though the outcome was readiness, not a timeout. -/
theorem waitData_ready_can_return_zero :
    SocketBase.waitData ⟨5, 100⟩ 1000 [WaitOutcome.ready 0 900] = Except.ok 0 ∧
    WaitOutcome.ready 0 900 ≠ WaitOutcome.timedOut := by decide

/-- C6 amended.  On a live handle: a signal interruption during the wait is
retried rather than raised; a timed-out select yields 0; with a bounded
timeout, readiness yields the remaining budget recomputed in whole
milliseconds (tv_sec * 1000 + tv_usec / 1000), a value that is positive
except when less than one millisecond of budget remains, in which case it is
0 and indistinguishable from a timeout; with the WAIT_DATA_FOREVER sentinel
the wait has no deadline and readiness yields the positive select count 1. -/
theorem waitData_behavior (s : SocketBase) (timeout : Int)
    (hs : s.hsock ≠ INVALID_HANDLER) (hi : s.inode ≠ INVALID_INODE) :
    (∀ rest, s.waitData timeout (WaitOutcome.eintr :: rest) = s.waitData timeout rest) ∧
    (∀ rest, s.waitData timeout (WaitOutcome.timedOut :: rest) = Except.ok 0) ∧
    (timeout ≠ WAIT_DATA_FOREVER → ∀ rs ru rest,
        s.waitData timeout (WaitOutcome.ready rs ru :: rest) =
          Except.ok (Int.ofNat (rs * 1000 + ru / 1000))) ∧
    (∀ rs ru rest, s.waitData WAIT_DATA_FOREVER (WaitOutcome.ready rs ru :: rest) =
        Except.ok 1) := by
  have h2 : ¬(s.hsock = INVALID_HANDLER ∨ s.inode = INVALID_INODE) := not_or.mpr ⟨hs, hi⟩
  refine ⟨?_, ?_, ?_, ?_⟩
  · intro rest
    simp [SocketBase.waitData, waitDataLoop, h2]
  · intro rest
    simp [SocketBase.waitData, waitDataLoop, h2]
  · intro hft rs ru rest
    simp [SocketBase.waitData, waitDataLoop, h2, hft]
  · intro rs ru rest
    simp [SocketBase.waitData, waitDataLoop, h2]

/-- C6 amended, witness: readiness with 1 second and 500 microseconds of
budget left yields 1000 ms. -/
theorem waitData_behavior_witness :
    SocketBase.waitData ⟨5, 100⟩ 2000 [WaitOutcome.ready 1 500] =
      Except.ok (Int.ofNat (1 * 1000 + 500 / 1000)) :=
  (waitData_behavior ⟨5, 100⟩ 2000 (by decide) (by decide)).2.2.1 (by decide) 1 500 []

/-- C7.  For every positive interest mask, timeout and non-empty handle
list: an empty handle list yields none with no poll issued; every poll
attempt — the nEintr interrupted ones and the final one — is passed the same
caller-supplied timeout; when poll reports no descriptor with events
(timeout), the result is none; when at least one descriptor has events, the
result is the first descriptor in input order whose observed events
intersect the interest mask (the index into the list, modelling the returned
pointer to that handle; none when no observed events intersect the mask), so
at most one ready handle is ever reported per call. -/
theorem waitEvent_first_match (eventType : Int) (timeout : Nat) (socklist : List SocketBase)
    (nEintr : Nat) (revents : List Nat) (hev : 0 < eventType) (hne : socklist ≠ []) :
    (∀ fin k, waitEvent eventType timeout [] k fin = (none, [])) ∧
    ((waitEvent eventType timeout socklist nEintr (PollFinal.result revents)).2 =
        List.replicate (nEintr + 1) timeout) ∧
    ((∀ r ∈ revents, r = 0) →
        (waitEvent eventType timeout socklist nEintr (PollFinal.result revents)).1 = none) ∧
    ((∃ r ∈ revents, r ≠ 0) →
        (waitEvent eventType timeout socklist nEintr (PollFinal.result revents)).1 =
          revents.findIdx? (fun r => r &&& eventType.toNat != 0)) := by
  have hemp : socklist.isEmpty = false := by
    cases socklist with
    | nil => exact absurd rfl hne
    | cons a t => rfl
  have hevle : ¬(eventType ≤ 0) := not_le.mpr hev
  refine ⟨?_, ?_, ?_, ?_⟩
  · intro fin k
    simp [waitEvent]
  · simp only [waitEvent, hemp, hevle]
    simp only [Bool.false_eq_true, false_or, if_false, decide_not]
    split <;> rfl
  · intro hall
    have hcount : revents.countP (fun r => r != 0) = 0 := by
      rw [List.countP_eq_zero]
      intro a ha
      simp [hall a ha]
    simp [waitEvent, hemp, hevle, hcount]
  · intro hex
    have hcount : 0 < revents.countP (fun r => r != 0) := by
      rw [List.countP_pos_iff]
      obtain ⟨r, hr, hrne⟩ := hex
      exact ⟨r, hr, by simpa using hrne⟩
    simp [waitEvent, hemp, hevle, hcount]

/-- C7 witness: three handles, interest WAIT_READ, where only the second
descriptor reports POLLIN: the second handle (index 1) is returned. -/
theorem waitEvent_first_match_witness :
    (waitEvent WAIT_READ 50 [⟨3, 7⟩, ⟨4, 8⟩, ⟨5, 9⟩] 0 (PollFinal.result [0, 1, 0])).1 =
      [0, 1, 0].findIdx? (fun r => r &&& (WAIT_READ : Int).toNat != 0) :=
  (waitEvent_first_match WAIT_READ 50 [⟨3, 7⟩, ⟨4, 8⟩, ⟨5, 9⟩] 0 [0, 1, 0] (by decide)
      (by decide)).2.2.2 ⟨1, by decide, by decide⟩

/-- C8 counterexample.  The claim states that after close every operation on
the handle fails with InvalidHandle.  After closing the live handle ⟨5, 100⟩,
pending() fails with InvalidArgument (its ioctl fails on the released
descriptor and the code maps that to std::invalid_argument), not with
InvalidHandle. -/
theorem pending_after_close_not_invalid_handle :
    (SocketBase.pending (SocketBase.close ⟨5, 100⟩).1 ⟨[]⟩).1 =
      Except.error SockError.invalidArgument ∧
    (Except.error SockError.invalidArgument : Except SockError Nat) ≠
      Except.error SockError.invalidHandle := by decide

/-- C8 amended.  For every live handle: close() releases the descriptor with
a single ::close OS call and never signals shutdown; close() is idempotent (a
second close performs no OS call and leaves the state unchanged); destroying
a live handle (the destructor calls terminate) shuts the descriptor down in
both directions and then releases it; destroying a handle after close()
performs no OS call, so shutdown is not re-signalled; after close, read,
write and waitData fail with InvalidHandle, while pending fails with
InvalidArgument raised when its ioctl fails on the released descriptor. -/
theorem close_lifecycle (s : SocketBase) (hs : s.hsock ≠ INVALID_HANDLER) :
    (s.close = (⟨INVALID_HANDLER, 0⟩, [OsCall.closeCall s.hsock])) ∧
    (OsCall.shutdownCall s.hsock ∉ s.close.2) ∧
    (s.close.1.close = (s.close.1, [])) ∧
    (s.dtor = (⟨INVALID_HANDLER, 0⟩, [OsCall.shutdownCall s.hsock, OsCall.closeCall s.hsock])) ∧
    (s.close.1.dtor = (s.close.1, [])) ∧
    (∀ bytes timeout q steps, 0 < bytes →
        s.close.1.read false bytes timeout q steps =
          (Except.error SockError.invalidHandle, [])) ∧
    (∀ buf bytes writeMode room, 0 < bytes →
        s.close.1.write (some buf) bytes writeMode room =
          (Except.error SockError.invalidHandle, [])) ∧
    (∀ timeout outs, s.close.1.waitData timeout outs = Except.error SockError.invalidHandle) ∧
    (∀ q, s.close.1.pending q =
        (Except.error SockError.invalidArgument, q, [OsCall.ioctlFIONREAD])) := by
  have hcl : s.close = (⟨INVALID_HANDLER, 0⟩, [OsCall.closeCall s.hsock]) := by
    simp [SocketBase.close, hs]
  refine ⟨hcl, ?_, ?_, ?_, ?_, ?_, ?_, ?_, ?_⟩
  · rw [hcl]
    simp
  · rw [hcl]
    simp [SocketBase.close, INVALID_HANDLER]
  · simp [SocketBase.dtor, SocketBase.terminate, hs]
  · rw [hcl]
    simp [SocketBase.dtor, SocketBase.terminate, INVALID_HANDLER]
  · intro bytes timeout q steps hb
    rw [hcl]
    have h1 : ¬(bytes ≤ 0) := by omega
    simp [SocketBase.read, h1]
  · intro buf bytes writeMode room hb
    rw [hcl]
    have h1 : ¬(bytes ≤ 0) := by omega
    simp [SocketBase.write, h1]
  · intro timeout outs
    rw [hcl]
    simp [SocketBase.waitData]
  · intro q
    rw [hcl]
    simp [SocketBase.pending]

/-- C8 amended, witness: the live handle ⟨5, 100⟩ is closed with a single
::close OS call and no shutdown. -/
theorem close_lifecycle_witness :
    SocketBase.close ⟨5, 100⟩ = (⟨INVALID_HANDLER, 0⟩, [OsCall.closeCall 5]) :=
  (close_lifecycle ⟨5, 100⟩ (by decide)).1

/-- C9.  For every live handle a, after b is move-constructed from a: b holds
the original descriptor and identity (b equals the original state, so it is
live and behaves as the original handle), the source a is invalidated
(descriptor sentinel, identity zero); every I/O operation on a — read, write,
waitData — fails with InvalidHandle; and destroying a performs no OS call,
so it has no effect on the descriptor now owned by b. -/
theorem move_semantics (a : SocketBase)
    (hs : a.hsock ≠ INVALID_HANDLER) (hi : a.inode ≠ INVALID_INODE) :
    ((SocketBase.moveCtor a).1 = a) ∧
    ((SocketBase.moveCtor a).1.hsock ≠ INVALID_HANDLER ∧
     (SocketBase.moveCtor a).1.inode ≠ INVALID_INODE) ∧
    ((SocketBase.moveCtor a).2 = ⟨INVALID_HANDLER, INVALID_INODE⟩) ∧
    (∀ bytes timeout q steps, 0 < bytes →
        (SocketBase.moveCtor a).2.read false bytes timeout q steps =
          (Except.error SockError.invalidHandle, [])) ∧
    (∀ buf bytes writeMode room, 0 < bytes →
        (SocketBase.moveCtor a).2.write (some buf) bytes writeMode room =
          (Except.error SockError.invalidHandle, [])) ∧
    (∀ timeout outs, (SocketBase.moveCtor a).2.waitData timeout outs =
        Except.error SockError.invalidHandle) ∧
    ((SocketBase.moveCtor a).2.dtor = ((SocketBase.moveCtor a).2, [])) := by
  refine ⟨rfl, ⟨hs, hi⟩, rfl, ?_, ?_, ?_, ?_⟩
  · intro bytes timeout q steps hb
    have h1 : ¬(bytes ≤ 0) := by omega
    simp [SocketBase.moveCtor, SocketBase.invalidate, SocketBase.read, h1]
  · intro buf bytes writeMode room hb
    have h1 : ¬(bytes ≤ 0) := by omega
    simp [SocketBase.moveCtor, SocketBase.invalidate, SocketBase.write, h1]
  · intro timeout outs
    simp [SocketBase.moveCtor, SocketBase.invalidate, SocketBase.waitData]
  · simp [SocketBase.moveCtor, SocketBase.invalidate, SocketBase.dtor,
      SocketBase.terminate, INVALID_HANDLER]

/-- C9 witness: moving from the live handle ⟨5, 100⟩ leaves the moved-to
object equal to the original. -/
theorem move_semantics_witness :
    (SocketBase.moveCtor ⟨5, 100⟩).1 = ⟨5, 100⟩ :=
  (move_semantics ⟨5, 100⟩ (by decide) (by decide)).1

/-- C10.  For every string s (modelled as its byte list), the std::string
overload of write calls the raw write with the characters of s followed by
one terminating null byte and with byte count s.size() + 1; on full success
(blocking WRITE_WAIT_QUEUED, or room for all the bytes) the send is handed
exactly those s.size() + 1 bytes and the returned value is s.size() + 1, one
more than the string's length. -/
theorem writeString_sends_length_plus_one (s : SocketBase) (str : List Nat)
    (writeMode room : Nat)
    (hs : s.hsock ≠ INVALID_HANDLER) (hi : s.inode ≠ INVALID_INODE) :
    (s.writeString str writeMode room =
        s.write (some (str ++ [0])) (Int.ofNat (str.length + 1)) writeMode room) ∧
    (writeMode = WRITE_WAIT_QUEUED →
        s.writeString str writeMode room =
          (Except.ok (Int.ofNat (str.length + 1)), [OsCall.sendCall (str ++ [0])])) ∧
    (str.length + 1 ≤ room →
        s.writeString str writeMode room =
          (Except.ok (Int.ofNat (str.length + 1)), [OsCall.sendCall (str ++ [0])])) := by
  have hnh : ¬(s.hsock = INVALID_HANDLER ∨ s.inode = INVALID_INODE) := not_or.mpr ⟨hs, hi⟩
  have hle : ¬((str.length : Int) + 1 ≤ 0) := by omega
  have hlt : ¬((str.length : Int) + 1 < 0) := by omega
  have htk : List.take (str.length + 1) (str ++ [0]) = str ++ [0] :=
    List.take_of_length_le (by simp)
  refine ⟨rfl, ?_, ?_⟩
  · intro hw
    simp [SocketBase.writeString, SocketBase.write, hnh, sendModel, hw,
      WRITE_WAIT_QUEUED, WRITE_DONT_WAIT, hle, hlt, htk]
  · intro hroom
    by_cases hw : writeMode = WRITE_DONT_WAIT
    · have hr0 : ¬(room = 0) := by
        simp only [WRITE_DONT_WAIT] at *
        omega
      have hmin : min (str.length + 1) room = str.length + 1 := by omega
      simp [SocketBase.writeString, SocketBase.write, hnh, sendModel, hw, hr0,
        hmin, hle, hlt, htk]
    · simp [SocketBase.writeString, SocketBase.write, hnh, sendModel, hw, hle, hlt, htk]

/-- C10 witness: writing the 4-byte string [80, 73, 78, 71] with
WRITE_WAIT_QUEUED transmits 5 bytes, the characters plus the null
terminator, and returns 5. -/
theorem writeString_sends_length_plus_one_witness :
    SocketBase.writeString ⟨5, 100⟩ [80, 73, 78, 71] WRITE_WAIT_QUEUED 0 =
      (Except.ok (Int.ofNat ([80, 73, 78, 71].length + 1)),
       [OsCall.sendCall ([80, 73, 78, 71] ++ [0])]) :=
  (writeString_sends_length_plus_one ⟨5, 100⟩ [80, 73, 78, 71] WRITE_WAIT_QUEUED 0
      (by decide) (by decide)).2.1 rfl

end LibSocket
